import Mathlib

/-!
# Verification of the 2048 rule engine (ajitashwathr10/2048-py, src/main.py)

Shallow embedding of the game core of `src/main.py` (class `Game`): the
4x4 board, the move-resolution algorithm (`move_tiles` / `_move_tile`),
tile spawning (`add_new_tile`), undo bookkeeping (`undo_move`), power-ups
(`use_power_up`, `clear_tile`, `activate_double_points`,
`update_power_ups`, `get_score_multiplier`), game-over detection
(`update` / `_check_can_merge`) and achievements (`check_achievements`,
`unlock_achievement`, `reset_game`).

Modelling conventions:
* the board size is 4 and `max_undos` is 3, as fixed by `Game.__init__`'s
  `config`; a grid is a total function `Fin 4 → Fin 4 → Nat`;
* randomness (`random.choice` over the empty cells, `random.random() < 0.9`)
  is passed in explicitly: a natural `pick` selecting an empty cell and a
  boolean `roll` (`true` models drawing a 2, i.e. `random.random() < 0.9`);
* Python floats that the claims exercise are exact: the score multiplier is
  `1.0` doubled once per active double-points effect and the merged tile
  values are naturals, so score arithmetic is modelled over `Nat`; the
  wall-clock time fields (`time_attack_duration`, `time_remaining`) are
  modelled as integers (their fractional part is never relevant here);
* Python's implicit `return None` is modelled as `Option.none`, and the
  runtime errors a call can raise (`AttributeError` for a never-assigned
  attribute, `KeyError` for a missing dict key, ...) as an `Except` error;
* external collaborators (pygame rendering, the sqlite connection, the
  statistics JSON file, wall-clock reads) are outside the core and are not
  modelled; their call sites are noted in comments.
-/

namespace Game2048

/-- A board: `self.grid`, a 4x4 nested list of ints, 0 meaning empty. -/
abbrev Grid := Fin 4 → Fin 4 → Nat

/-- The all-empty grid, `[[0] * 4 for _ in range(4)]`. -/
def zeroGrid : Grid := fun _ _ => 0

/-- Write value `v` at cell `(a, b)` (Python `self.grid[a][b] = v`). -/
def setCell (g : Grid) (a b : Fin 4) (v : Nat) : Grid :=
  fun x y => if x = a ∧ y = b then v else g x y

/-- Bounds check `0 <= x < 4 and 0 <= y < 4` on int indices, returning the
cell coordinates when in range. -/
def toIdx (x y : Int) : Option (Fin 4 × Fin 4) :=
  if h : 0 ≤ x ∧ x < 4 ∧ 0 ≤ y ∧ y < 4 then
    some (⟨x.toNat, by omega⟩, ⟨y.toNat, by omega⟩)
  else none

/-- Read `self.grid[x][y]` at int indices; all reads in the algorithm are
guarded by the bounds check, so the out-of-range default 0 is never hit. -/
def readI (g : Grid) (x y : Int) : Nat :=
  match toIdx x y with
  | some c => g c.1 c.2
  | none => 0

/-- Write `self.grid[x][y] = v` at int indices; all writes in the algorithm
are at in-range positions, so the out-of-range no-op branch is never hit. -/
def writeI (g : Grid) (x y : Int) (v : Nat) : Grid :=
  match toIdx x y with
  | some c => setCell g c.1 c.2 v
  | none => g

/-- Read the `merged` flag matrix at int indices (`merged[x][y]`); the
positions read are always in range, so the default `false` is never hit. -/
def readBI (m : Fin 4 → Fin 4 → Bool) (x y : Int) : Bool :=
  match toIdx x y with
  | some c => m c.1 c.2
  | none => false

/-- An entry of `self.active_power_ups`: a dict
`{'type': ..., 'duration': ...}` appended by `activate_double_points`. -/
structure APU where
  type : String
  duration : Int
deriving DecidableEq

/-- `Game.get_score_multiplier` (lines 263-268): starts at `1.0` and doubles
once per active `'double_points'` effect. The float is an exact power of
two, modelled as a natural. -/
def get_score_multiplier (l : List APU) : Nat :=
  l.foldl (fun m p => if p.type = "double_points" then m * 2 else m) 1

/-- The mutable state threaded through `_move_tile`: the grid, the `merged`
flag matrix, and `self.score`.  `mergedValues` is a ghost field recording
the value of each merged tile as it is created (the `self.grid[ni][nj]`
added to the score); it does not influence the computation. -/
structure MvS where
  grid : Grid
  merged : Fin 4 → Fin 4 → Bool
  score : Nat
  mergedValues : List Nat

/-- The `while` loop of `Game._move_tile` (lines 199-215).  `cur` is the
`current` value picked up at the loop entry, `(di, dj)` the direction
deltas, `(ni, nj)` the candidate position.  The loop runs at most 4 times
(a tile slides at most 3 cells and then merges or stops), so fuel 4 at the
call site makes the fuel bound unreachable. -/
def move_tile_loop (active : List APU) (cur : Nat) (di dj : Int) :
    Nat → Int → Int → MvS → MvS
  | 0, _, _, st => st
  | Nat.succ fuel, ni, nj, st =>
    match toIdx ni nj with
    | none => st
    | some c =>
      if st.grid c.1 c.2 = 0 then
        -- slide: grid[ni][nj] = current; grid[ni-di][nj-dj] = 0; continue
        move_tile_loop active cur di dj fuel (ni + di) (nj + dj)
          { st with grid := writeI (setCell st.grid c.1 c.2 cur) (ni - di) (nj - dj) 0 }
      else if st.grid c.1 c.2 = cur ∧ st.merged c.1 c.2 = false ∧
          readBI st.merged (ni - di) (nj - dj) = false then
        -- merge: grid[ni][nj] *= 2; score += grid[ni][nj] * multiplier;
        -- grid[ni-di][nj-dj] = 0; merged[ni][nj] = True; break
        { grid := writeI (setCell st.grid c.1 c.2 (st.grid c.1 c.2 * 2)) (ni - di) (nj - dj) 0,
          merged := fun x y => if x = c.1 ∧ y = c.2 then true else st.merged x y,
          score := st.score + st.grid c.1 c.2 * 2 * get_score_multiplier active,
          mergedValues := st.mergedValues ++ [st.grid c.1 c.2 * 2] }
      else st

/-- `Game._move_tile` (lines 192-215): returns immediately on an empty
source cell, otherwise runs the sliding/merging loop from `(i+di, j+dj)`. -/
def move_tile (active : List APU) (i j : Fin 4) (di dj : Int) (st : MvS) : MvS :=
  if st.grid i j = 0 then st
  else move_tile_loop active (st.grid i j) di dj 4
    ((i.val : Int) + di) ((j.val : Int) + dj) st

/-- A move direction (the `direction` strings 'up'/'down'/'left'/'right'
accepted by `Game.move_tiles`). -/
inductive Direction where
  | up | down | left | right
deriving DecidableEq

/-- Index lists `range(1, 4)` and `range(4 - 2, -1, -1)` as `Fin 4` values. -/
def idxAsc : List (Fin 4) := [1, 2, 3]

/-- Index list `[2, 1, 0]` as `Fin 4` values. -/
def idxDesc : List (Fin 4) := [2, 1, 0]

/-- The `_move_tile` call sequence of `Game.move_tiles` (lines 165-181):
each element is `(i, j, di, dj)`, in the exact loop order of the source. -/
def calls : Direction → List (Fin 4 × Fin 4 × Int × Int)
  | .up => (List.finRange 4).flatMap fun j => idxAsc.map fun i => (i, j, -1, 0)
  | .down => (List.finRange 4).flatMap fun j => idxDesc.map fun i => (i, j, 1, 0)
  | .left => (List.finRange 4).flatMap fun i => idxAsc.map fun j => (i, j, 0, -1)
  | .right => (List.finRange 4).flatMap fun i => idxDesc.map fun j => (i, j, 0, 1)

/-- The move-resolution phase of `Game.move_tiles`: starting from grid `g`,
a fresh all-`False` `merged` matrix and score `score0`, run every
`_move_tile` call for the direction.  `active` is `self.active_power_ups`
(unchanged by `_move_tile`, read by `get_score_multiplier` at each merge). -/
def resolve (dir : Direction) (active : List APU) (g : Grid) (score0 : Nat) : MvS :=
  (calls dir).foldl
    (fun st c => move_tile active c.1 c.2.1 c.2.2.1 c.2.2.2 st)
    { grid := g, merged := fun _ _ => false, score := score0, mergedValues := [] }

/-- Python's nested-list comparison `original_grid != self.grid`, negated:
cell-by-cell equality of the two 4x4 boards. -/
def gridEqb (a b : Grid) : Bool :=
  (List.finRange 4).all fun i => (List.finRange 4).all fun j =>
    decide (a i j = b i j)

/-- The Python runtime errors the power-up and reset paths can raise. -/
inductive PyErr where
  | attributeError | keyError | nameError | typeError
deriving DecidableEq

/-- An entry of the power-up catalog built by `Game.initialize_power_ups`
(lines 107-129).  `count` is `some` exactly when the `'count'` key is
present in the dict (the `'clear_tile'` entry has no `'count'` key);
likewise `duration`.  The display-only `'name'`, `'description'` and
`'key'` strings are not modelled. -/
structure PUEntry where
  count : Option Nat
  initial_count : Nat
  duration : Option Int
deriving DecidableEq

/-- `Game.initialize_power_ups` (lines 107-129): the catalog assigned to
`self.power_ups`.  `maxU` is `self.max_undos`. -/
def init_power_ups (maxU : Nat) : List (String × PUEntry) :=
  [("undo", { count := some maxU, initial_count := maxU, duration := none }),
   ("clear_tile", { count := none, initial_count := 1, duration := none }),
   ("double_points", { count := some 1, initial_count := 1, duration := some 5 })]

/-- Dict key lookup `d[k]`. -/
def lookupPU (d : List (String × PUEntry)) (k : String) : Option PUEntry :=
  (d.find? fun e => e.1 = k).map (·.2)

/-- `available_power_ups[id]['count'] -= 1` given the current count `c`. -/
def decPUCount (d : List (String × PUEntry)) (k : String) (c : Nat) :
    List (String × PUEntry) :=
  d.map fun e => if e.1 = k then (e.1, { e.2 with count := some (c - 1) }) else e

/-- The achievement conditions of `Game.setup_achievements`: the source
stores them as strings handed to `eval` over the fixed environment
`{max_tile, win_time, undo_count}`; the three conditions that occur are
modelled as a closed enumeration. -/
inductive Cond where
  | max_tile_ge_2048 | win_time_lt_180 | undo_count_eq_0
deriving DecidableEq

/-- The environment `check_achievements` hands to `eval` (lines 310-315). -/
structure AchEnv where
  max_tile : Nat
  win_time : Int
  undo_count : Nat
deriving DecidableEq

/-- Evaluate an achievement condition over the environment. -/
def condHolds : Cond → AchEnv → Bool
  | .max_tile_ge_2048, e => decide (2048 ≤ e.max_tile)
  | .win_time_lt_180, e => decide (e.win_time < 180)
  | .undo_count_eq_0, e => decide (e.undo_count = 0)

/-- The `Achievement` dataclass (lines 17-24); the display-only
`description` and `icon` strings are not modelled. -/
structure Achievement where
  id : String
  name : String
  condition : Cond
  unlocked : Bool
deriving DecidableEq

/-- `Game.setup_achievements` (lines 81-105).  `load_achievements` then
overwrites the `unlocked` flags from the external sqlite store; a fresh
database leaves all three locked, which is the state modelled here. -/
def setup_achievements : List Achievement :=
  [{ id := "first_2048", name := "First 2048!",
     condition := .max_tile_ge_2048, unlocked := false },
   { id := "speed_demon", name := "Speed Demon",
     condition := .win_time_lt_180, unlocked := false },
   { id := "perfect_game", name := "Perfect Game",
     condition := .undo_count_eq_0, unlocked := false }]

/-- A notification record appended by `unlock_achievement` (lines 321-325);
`start_time` is the `pygame.time.get_ticks()` value passed in as `now`. -/
structure Notif where
  text : String
  start_time : Nat
  duration : Nat
deriving DecidableEq

/-- The notification `unlock_achievement` appends for achievement `a`. -/
def mkNotif (a : Achievement) (now : Nat) : Notif :=
  { text := String.append "Achievement Unlocked: " a.name,
    start_time := now, duration := 3000 }

/-- The session state of the `Game` object: every attribute the core
reads or writes.  `available_power_ups` is `Option`-valued because the
attribute `self.available_power_ups` is never assigned anywhere in the
source (`initialize_features` assigns the catalog to `self.power_ups`
instead), so on a real `Game` object reading it raises `AttributeError`:
that unassigned status is `none`.  The statistics dict is reduced to the
counters the core mutates; `last_time` and the sqlite/pygame handles are
external. -/
structure GameState where
  grid : Grid
  score : Nat
  game_over : Bool
  move_history : List Grid
  max_undos : Nat
  undo_count : Nat
  available_power_ups : Option (List (String × PUEntry))
  power_ups : List (String × PUEntry)
  active_power_ups : List APU
  achievements : List Achievement
  notifs : List Notif
  stats_moves_made : Nat
  stats_games_played : Nat
  time_attack_duration : Int
  time_remaining : Int

/-- The empty-cell list of `Game.add_new_tile` (lines 149-152), in the
source's row-major comprehension order. -/
def empty_cells (g : Grid) : List (Fin 4 × Fin 4) :=
  (List.finRange 4).flatMap fun i =>
    ((List.finRange 4).filter fun j => decide (g i j = 0)).map fun j => (i, j)

/-- `Game.add_new_tile` (lines 148-155).  `pick` chooses the
`random.choice` element (any index is reachable via `pick % length`);
`roll = true` models `random.random() < 0.9`, writing a 2, else a 4.
The Python function has no `return` statement, so it returns `None` in
both branches: the second component models that returned value. -/
def add_new_tile (g : Grid) (pick : Nat) (roll : Bool) : Grid × Option Bool :=
  let e := empty_cells g
  if h : e ≠ [] then
    let c := e.get ⟨pick % e.length, Nat.mod_lt _ (List.length_pos.mpr h)⟩
    (setCell g c.1 c.2 (if roll then 2 else 4), none)
  else (g, none)

/-- The history push at the top of `Game.move_tiles` (lines 158-160):
append a copy of the grid, then `pop(0)` once if the length exceeds
`max_undos + 1`. -/
def pushHist (h : List Grid) (g : Grid) (maxU : Nat) : List Grid :=
  let h1 := h ++ [g]
  if maxU + 1 < h1.length then h1.drop 1 else h1

/-- `Game.undo_move` (lines 217-225): succeeds iff the history is deeper
than one, the undo budget is not exhausted and the game is not over; on
success it pops the most recent snapshot, copies the new most recent
snapshot into the grid and increments `undo_count`.  The `getLastD`
default is unreachable (the popped list still has at least one element).
Note the source restores only the grid: the score is left untouched. -/
def undo_move (s : GameState) : GameState × Bool :=
  if 1 < s.move_history.length ∧ s.undo_count < s.max_undos ∧ s.game_over = false then
    let h1 := s.move_history.dropLast
    ({ s with
       move_history := h1, grid := h1.getLastD zeroGrid,
       undo_count := s.undo_count + 1 }, true)
  else (s, false)

/-- `Game.update_power_ups` (lines 227-232): decrement every active
effect's duration and drop the ones that reached zero (every entry ever
appended carries a `'duration'` key). -/
def update_power_ups (l : List APU) : List APU :=
  (l.map fun p => { p with duration := p.duration - 1 }).filter fun p =>
    decide (0 < p.duration)

/-- `max(tile for row in self.grid for tile in row)` (lines 305-307): the
largest cell value; the fold over naturals from 0 agrees with Python's
`max` on the 16 non-negative values. -/
def max_tile (g : Grid) : Nat :=
  ((List.finRange 4).flatMap fun i => (List.finRange 4).map fun j => g i j).foldl
    Nat.max 0

/-- `Game.check_achievements` (lines 304-317) together with
`unlock_achievement` (lines 319-330): scan the achievements in order; a
locked achievement whose condition now holds is unlocked and appends a
notification.  The sqlite insert in `unlock_achievement` is external
persistence and is not modelled.  Returns the updated list and the
notifications appended, in order. -/
def check_achievements (achs : List Achievement) (env : AchEnv) (now : Nat) :
    List Achievement × List Notif :=
  achs.foldl
    (fun acc a =>
      if a.unlocked = false then
        if condHolds a.condition env then
          (acc.1 ++ [{ a with unlocked := true }], acc.2 ++ [mkNotif a now])
        else (acc.1 ++ [a], acc.2)
      else (acc.1 ++ [a], acc.2))
    ([], [])

/-- `Game.move_tiles` (lines 157-190): push the pre-move snapshot, run the
move resolution, compare against the pre-move copy; on a change, bump the
move counter, scan achievements, age the active power-ups and spawn one
tile.  `pick`/`roll` feed the spawn's randomness, `now` the notification
timestamps. -/
def move_tiles (dir : Direction) (pick : Nat) (roll : Bool) (now : Nat)
    (s : GameState) : GameState × Bool :=
  let hist := pushHist s.move_history s.grid s.max_undos
  let st := resolve dir s.active_power_ups s.grid s.score
  let moved := !(gridEqb s.grid st.grid)
  let s1 := { s with move_history := hist, grid := st.grid, score := st.score }
  if moved then
    let s2 := { s1 with stats_moves_made := s1.stats_moves_made + 1 }
    let env : AchEnv := {
      max_tile := max_tile s2.grid,
      win_time := s2.time_attack_duration - s2.time_remaining,
      undo_count := s2.undo_count }
    let pr := check_achievements s2.achievements env now
    let s3 := { s2 with achievements := pr.1, notifs := s2.notifs ++ pr.2 }
    let s4 := { s3 with active_power_ups := update_power_ups s3.active_power_ups }
    let s5 := { s4 with grid := (add_new_tile s4.grid pick roll).1 }
    (s5, true)
  else (s1, false)

/-- `Game.clear_tile` (lines 249-254): bounds-check the int coordinates,
then clear a nonzero cell; both failure branches return `False` with the
grid untouched. -/
def clear_tile (g : Grid) (row col : Int) : Grid × Bool :=
  match toIdx row col with
  | some c => if g c.1 c.2 ≠ 0 then (setCell g c.1 c.2 0, true) else (g, false)
  | none => (g, false)

/-- `Game.use_power_up` (lines 234-247), together with
`activate_double_points` (lines 256-261).  Every path starts by reading
`self.available_power_ups`: when that attribute was never assigned the
call raises `AttributeError`.  Reading the missing `'count'` key of the
`'clear_tile'` entry raises `KeyError`; unpacking `*args` of the wrong
arity for `clear_tile` raises `TypeError`; an id that is in the dict but
matches no dispatch branch would leave `success` unbound (`NameError`,
unreachable for this catalog). -/
def use_power_up (s : GameState) (id : String) (args : List Int) :
    Except PyErr (GameState × Bool) :=
  match s.available_power_ups with
  | none => Except.error PyErr.attributeError
  | some d =>
    match lookupPU d id with
    | none => Except.ok (s, false)
    | some e =>
      match e.count with
      | none => Except.error PyErr.keyError
      | some c =>
        if 0 < c then
          let act : Except PyErr (GameState × Bool) :=
            if id = "undo" then
              Except.ok (undo_move s)
            else if id = "clear_tile" then
              match args with
              | [r, cc] =>
                let pr := clear_tile s.grid r cc
                Except.ok ({ s with grid := pr.1 }, pr.2)
              | _ => Except.error PyErr.typeError
            else if id = "double_points" then
              match lookupPU d "double_points" with
              | none => Except.error PyErr.keyError
              | some e2 =>
                match e2.duration with
                | none => Except.error PyErr.keyError
                | some dur =>
                  Except.ok ({ s with active_power_ups :=
                    s.active_power_ups ++ [{ type := "double_points", duration := dur }] },
                    true)
            else Except.error PyErr.nameError
          match act with
          | Except.error err => Except.error err
          | Except.ok (s2, ok) =>
            if ok then
              Except.ok ({ s2 with available_power_ups := some (decPUCount d id c) }, true)
            else Except.ok (s2, false)
        else Except.ok (s, false)

/-- The `empty_cells = any(...)` scan of `Game.update` (lines 280-284). -/
def hasEmpty (g : Grid) : Bool :=
  (List.finRange 4).any fun i => (List.finRange 4).any fun j =>
    decide (g i j = 0)

/-- Bounds-guarded cell read at natural indices (`self.grid[i][j+1]`,
`self.grid[i+1][j]`); the guards `j < 3` / `i < 3` keep it in range. -/
def getN (g : Grid) (i j : Nat) : Nat :=
  if h : i < 4 ∧ j < 4 then g ⟨i, h.1⟩ ⟨j, h.2⟩ else 0

/-- `Game._check_can_merge` (lines 291-302): some nonzero cell equals its
right or down neighbour. -/
def check_can_merge (g : Grid) : Bool :=
  (List.finRange 4).any fun i => (List.finRange 4).any fun j =>
    decide (g i j ≠ 0) &&
      ((decide (j.val < 3) && decide (getN g i.val (j.val + 1) = g i j)) ||
       (decide (i.val < 3) && decide (getN g (i.val + 1) j.val = g i j)))

/-- The game-over condition tested by `Game.update` (lines 279-289):
no empty cell and no possible merge. -/
def is_game_over (g : Grid) : Bool :=
  !(hasEmpty g) && !(check_can_merge g)

/-- The board-state part of `Game.update` (lines 279-289): when the game
is not already over and the board is blocked, set `game_over`.  The
TIME_ATTACK countdown branch (lines 271-278) reads the wall clock and is
not part of this embedding; `save_statistics` is external persistence. -/
def update_game_over (s : GameState) : GameState :=
  if s.game_over = false then
    if is_game_over s.grid then { s with game_over := true } else s
  else s

/-- The two adjacent cells share a row edge or a column edge. -/
def AdjCells (p q : Fin 4 × Fin 4) : Prop :=
  (p.1 = q.1 ∧ (p.2.val + 1 = q.2.val ∨ q.2.val + 1 = p.2.val)) ∨
  (p.2 = q.2 ∧ (p.1.val + 1 = q.1.val ∨ q.1.val + 1 = p.1.val))

/-- `Game.reset_game` (lines 452-471).  The source iterates over
`self.available_power_ups` to restore the counts: when that attribute was
never assigned, the loop raises `AttributeError` after the earlier
mutations have already happened; the second component records the raised
error and the first the object state at that point.  On the non-raising
path two tiles are spawned and `games_played` is bumped
(`save_statistics` is external). -/
def reset_game (s : GameState) (p1 : Nat) (r1 : Bool) (p2 : Nat) (r2 : Bool) :
    GameState × Option PyErr :=
  let s1 := { s with
    grid := zeroGrid, score := 0, game_over := false,
    move_history := [], undo_count := 0,
    time_remaining := s.time_attack_duration,
    notifs := [], active_power_ups := [] }
  match s1.available_power_ups with
  | none => (s1, some PyErr.attributeError)
  | some d =>
    let d2 := d.map fun e =>
      match e.2.count with
      | some _ => (e.1, { e.2 with count := some e.2.initial_count })
      | none => e
    let s2 := { s1 with available_power_ups := some d2 }
    let s3 := { s2 with grid := (add_new_tile s2.grid p1 r1).1 }
    let s4 := { s3 with grid := (add_new_tile s3.grid p2 r2).1 }
    ({ s4 with stats_games_played := s4.stats_games_played + 1 }, none)

/-- `Game.__init__` (lines 26-63) restricted to the core state: the 4x4
empty grid, score 0, the `initialize_features` assignments (lines 65-79;
note `self.available_power_ups` is NOT among them) and the two initial
spawns.  The statistics load falls back to the zero counters. -/
def mkGame (p1 : Nat) (r1 : Bool) (p2 : Nat) (r2 : Bool) : GameState :=
  let g1 := (add_new_tile zeroGrid p1 r1).1
  let g2 := (add_new_tile g1 p2 r2).1
  { grid := g2, score := 0, game_over := false, move_history := [],
    max_undos := 3, undo_count := 0,
    available_power_ups := none,
    power_ups := init_power_ups 3, active_power_ups := [],
    achievements := setup_achievements, notifs := [],
    stats_moves_made := 0, stats_games_played := 0,
    time_attack_duration := 180, time_remaining := 180 }

/-! ## Analysis devices and concrete fixtures

These are not source functions: `zeros` counts the empty cells of a
grid, `StepOk` is the invariant established by every `_move_tile` step,
`achStep` is the per-achievement update of one `check_achievements`
scan, `runChecks` iterates achievement scans over a sequence of moves,
and the named grids/states below are the concrete boards the claims
mention. -/

/-- The number of empty cells of a grid. -/
def zeros (g : Grid) : Nat :=
  (Finset.univ.filter fun c : Fin 4 × Fin 4 => g c.1 c.2 = 0).card

/-- Relation between move-phase states established by every `_move_tile`
step: empty cells never decrease; the score never decreases; a score
increase forces a strict gain of empty cells (only a merge adds to the
score, and a merge frees a cell); a grid change leaves at least one
empty cell; and the score grows by exactly the multiplier times the sum
of the newly recorded merged values. -/
def StepOk (active : List APU) (s t : MvS) : Prop :=
  zeros s.grid ≤ zeros t.grid ∧
  s.score ≤ t.score ∧
  (s.score < t.score → zeros s.grid < zeros t.grid) ∧
  (t.grid ≠ s.grid → 1 ≤ zeros t.grid) ∧
  ∃ L, t.mergedValues = s.mergedValues ++ L ∧
    t.score = s.score + get_score_multiplier active * L.sum

/-- The per-achievement update done by one `check_achievements` scan. -/
def achStep (env : AchEnv) (a : Achievement) : Achievement :=
  if a.unlocked = false then
    if condHolds a.condition env then { a with unlocked := true } else a
  else a

/-- Iterated achievement scans: the achievement list after a sequence of
board-changing moves, each supplying its environment and timestamp. -/
def runChecks (achs : List Achievement) (envs : List (AchEnv × Nat)) :
    List Achievement :=
  envs.foldl (fun l e => (check_achievements l e.1 e.2).1) achs

/-- A board whose first row is `[2, 2, 2, 2]` (the no-double-merge test). -/
def rowTwos : Grid := ![![2, 2, 2, 2], ![0, 0, 0, 0], ![0, 0, 0, 0], ![0, 0, 0, 0]]

/-- A board whose first row is `[0, 2, 2, 4]` (the single-merge test). -/
def rowMix : Grid := ![![0, 2, 2, 4], ![0, 0, 0, 0], ![0, 0, 0, 0], ![0, 0, 0, 0]]

/-- A playing session over board `g`, as `initialize_features` leaves the
bookkeeping: empty history, zero counters, no active effects, and
`available_power_ups` never assigned. -/
def sessionOf (g : Grid) : GameState :=
  { grid := g, score := 0, game_over := false, move_history := [],
    max_undos := 3, undo_count := 0, available_power_ups := none,
    power_ups := init_power_ups 3, active_power_ups := [],
    achievements := setup_achievements, notifs := [],
    stats_moves_made := 0, stats_games_played := 0,
    time_attack_duration := 180, time_remaining := 180 }

/-- The board snapshot taken before a previous (real) move. -/
def gPrev : Grid := ![![2, 2, 0, 0], ![0, 0, 0, 0], ![0, 0, 0, 0], ![0, 0, 0, 0]]

/-- The current board, on which a Left move is a no-op. -/
def gCur : Grid := ![![4, 0, 0, 0], ![0, 0, 0, 0], ![0, 0, 0, 0], ![0, 0, 0, 0]]

/-- A session sitting on `gCur` with the snapshot `gPrev` in its history. -/
def sNoop : GameState := { sessionOf gCur with move_history := [gPrev], score := 4 }

/-- A session with enough history for an undo. -/
def sUndoable : GameState :=
  { sessionOf gCur with move_history := [gPrev, gCur], score := 4 }

/-- A fully packed board with no equal neighbours (game over). -/
def fullGrid : Grid := ![![2, 4, 2, 4], ![4, 2, 4, 2], ![2, 4, 2, 4], ![4, 2, 4, 2]]

/-- The same packed board with an equal adjacent pair (not game over). -/
def fullGridPair : Grid := ![![4, 4, 2, 4], ![4, 2, 4, 2], ![2, 4, 2, 4], ![4, 2, 4, 2]]

/-- A single already-unlocked achievement (for the monotonicity witness). -/
def achWitness : Achievement :=
  { id := "w", name := "W", condition := .max_tile_ge_2048, unlocked := true }

/-- An environment whose predicates all hold. -/
def envWitness : AchEnv := { max_tile := 4096, win_time := 0, undo_count := 0 }

/-! ## Basic lemmas about cells, bounds and grid equality -/

theorem setCell_same (g : Grid) (a b : Fin 4) (v : Nat) : setCell g a b v a b = v := by
  simp [setCell]

theorem setCell_other (g : Grid) (a b : Fin 4) (v : Nat) (x y : Fin 4)
    (h : ¬(x = a ∧ y = b)) : setCell g a b v x y = g x y := by
  simp only [setCell, if_neg h]

theorem toIdx_eq_some {x y : Int} {p : Fin 4 × Fin 4} (h : toIdx x y = some p) :
    x = (p.1.val : Int) ∧ y = (p.2.val : Int) := by
  unfold toIdx at h
  split at h
  · rename_i hb
    cases h
    constructor <;> simp <;> omega
  · cases h

theorem toIdx_fin (i j : Fin 4) : toIdx (i.val : Int) (j.val : Int) = some (i, j) := by
  have hi := i.isLt
  have hj := j.isLt
  unfold toIdx
  rw [dif_pos (⟨by omega, by omega, by omega, by omega⟩ :
    0 ≤ (i.val : Int) ∧ (i.val : Int) < 4 ∧ 0 ≤ (j.val : Int) ∧ (j.val : Int) < 4)]
  refine congrArg some (Prod.ext (Fin.ext ?_) (Fin.ext ?_)) <;> simp

theorem readI_fin (g : Grid) (i j : Fin 4) : readI g (i.val : Int) (j.val : Int) = g i j := by
  simp [readI, toIdx_fin]

theorem readI_eq_of_some {x y : Int} {p : Fin 4 × Fin 4} (h : toIdx x y = some p)
    (g : Grid) : readI g x y = g p.1 p.2 := by
  simp [readI, h]

theorem writeI_eq_of_some {x y : Int} {p : Fin 4 × Fin 4} (h : toIdx x y = some p)
    (g : Grid) (v : Nat) : writeI g x y v = setCell g p.1 p.2 v := by
  simp [writeI, h]

theorem readI_ne_zero {g : Grid} {x y : Int} (h : readI g x y ≠ 0) :
    ∃ p, toIdx x y = some p ∧ g p.1 p.2 = readI g x y := by
  cases hx : toIdx x y with
  | none => exact absurd (by simp [readI, hx]) h
  | some p => exact ⟨p, rfl, by simp [readI, hx]⟩

theorem gridEqb_eq_true_iff (a b : Grid) : gridEqb a b = true ↔ a = b := by
  unfold gridEqb
  simp only [List.all_eq_true, List.mem_finRange, decide_eq_true_eq, forall_const]
  constructor
  · intro h
    funext i j
    exact h i j
  · intro h i j
    rw [h]

theorem gridEqb_eq_false_iff (a b : Grid) : gridEqb a b = false ↔ a ≠ b := by
  rw [← Bool.not_eq_true, not_iff_not]
  exact gridEqb_eq_true_iff a b

/-! ## Counting empty cells -/

theorem zeros_setCell (g : Grid) (a b : Fin 4) (v : Nat) :
    zeros (setCell g a b v) + (if g a b = 0 then 1 else 0)
      = zeros g + (if v = 0 then 1 else 0) := by
  classical
  unfold zeros
  rw [Finset.card_filter, Finset.card_filter]
  rw [← Finset.sum_erase_add _ _ (Finset.mem_univ (a, b)),
      ← Finset.sum_erase_add _ _ (Finset.mem_univ (a, b))]
  have h1 : ∀ c ∈ (Finset.univ : Finset (Fin 4 × Fin 4)).erase (a, b),
      (if setCell g a b v c.1 c.2 = 0 then 1 else 0)
        = (if g c.1 c.2 = 0 then 1 else 0) := by
    intro c hc
    have hne : c ≠ (a, b) := Finset.ne_of_mem_erase hc
    rw [setCell_other]
    intro hab
    exact hne (Prod.ext hab.1 hab.2)
  rw [Finset.sum_congr rfl h1, setCell_same]
  dsimp only
  omega

theorem zeros_pos_of_zero {g : Grid} {a b : Fin 4} (h : g a b = 0) : 1 ≤ zeros g := by
  have : (a, b) ∈ Finset.univ.filter fun c : Fin 4 × Fin 4 => g c.1 c.2 = 0 :=
    Finset.mem_filter.mpr ⟨Finset.mem_univ _, h⟩
  exact Finset.card_pos.mpr ⟨_, this⟩

theorem exists_zero_of_zeros_pos {g : Grid} (h : 1 ≤ zeros g) : ∃ a b, g a b = 0 := by
  obtain ⟨c, hc⟩ := Finset.card_pos.mp h
  exact ⟨c.1, c.2, (Finset.mem_filter.mp hc).2⟩

theorem mem_empty_cells {g : Grid} {c : Fin 4 × Fin 4} :
    c ∈ empty_cells g ↔ g c.1 c.2 = 0 := by
  cases c with
  | mk a b =>
    simp [empty_cells, List.mem_flatMap, List.mem_map, List.mem_filter]

/-! ## The score multiplier -/

theorem get_score_multiplier_pos (l : List APU) : 1 ≤ get_score_multiplier l := by
  unfold get_score_multiplier
  suffices h : ∀ m : Nat, m ≤ l.foldl (fun m p => if p.type = "double_points" then m * 2 else m) m by
    exact h 1
  induction l with
  | nil => intro m; exact Nat.le_refl m
  | cons p l ih =>
    intro m
    simp only [List.foldl_cons]
    split
    · exact le_trans (by omega) (ih (m * 2))
    · exact ih m

theorem get_score_multiplier_eq_pow (l : List APU) :
    get_score_multiplier l = 2 ^ (l.countP fun p => decide (p.type = "double_points")) := by
  unfold get_score_multiplier
  suffices h : ∀ m : Nat, l.foldl (fun m p => if p.type = "double_points" then m * 2 else m) m
      = m * 2 ^ (l.countP fun p => decide (p.type = "double_points")) by
    rw [h 1, Nat.one_mul]
  induction l with
  | nil => intro m; simp
  | cons p l ih =>
    intro m
    simp only [List.foldl_cons, List.countP_cons]
    by_cases hp : p.type = "double_points"
    · rw [if_pos hp, ih (m * 2)]
      simp [hp, Nat.pow_succ]
      ring
    · rw [if_neg hp, ih m]
      simp [hp]

/-! ## The move-phase invariant

Every `_move_tile` step preserves the following relation: the number of
empty cells never decreases, the score never decreases, a score increase
forces a strict gain of empty cells (only a merge adds to the score, and
a merge frees a cell), a grid change leaves at least one empty cell, and
the score grows by exactly the multiplier times the sum of the newly
recorded merged values. -/

theorem stepOk_refl (active : List APU) (s : MvS) : StepOk active s s :=
  ⟨le_refl _, le_refl _, fun h => absurd h (lt_irrefl _), fun h => absurd rfl h,
   ⟨[], by simp, by simp⟩⟩

theorem stepOk_trans {active : List APU} {a b c : MvS}
    (h1 : StepOk active a b) (h2 : StepOk active b c) : StepOk active a c := by
  obtain ⟨z1, s1, sz1, g1, L1, m1, e1⟩ := h1
  obtain ⟨z2, s2, sz2, g2, L2, m2, e2⟩ := h2
  refine ⟨le_trans z1 z2, le_trans s1 s2, ?_, ?_, L1 ++ L2, ?_, ?_⟩
  · intro h
    rcases Nat.lt_or_ge a.score b.score with hab | hab
    · exact lt_of_lt_of_le (sz1 hab) z2
    · have hb : b.score < c.score := lt_of_le_of_lt hab h
      exact lt_of_le_of_lt z1 (sz2 hb)
  · intro h
    by_cases hbc : c.grid = b.grid
    · have hba : b.grid ≠ a.grid := by
        intro hba
        exact h (hba ▸ hbc)
      exact le_trans (g1 hba) z2
    · exact g2 hbc
  · rw [m2, m1, List.append_assoc]
  · rw [e2, e1, List.sum_append, Nat.mul_add]
    omega

theorem zeros_setCell_zero_src {g : Grid} {a b : Fin 4} (h : g a b ≠ 0) :
    zeros (setCell g a b 0) = zeros g + 1 := by
  have h5 := zeros_setCell g a b 0
  rw [if_neg h, if_pos rfl] at h5
  omega

theorem zeros_setCell_fill {g : Grid} {a b : Fin 4} {v : Nat} (h : g a b = 0)
    (hv : v ≠ 0) : zeros (setCell g a b v) + 1 = zeros g := by
  have h5 := zeros_setCell g a b v
  rw [if_pos h, if_neg hv] at h5
  omega

theorem zeros_setCell_keep {g : Grid} {a b : Fin 4} {v : Nat} (h : g a b ≠ 0)
    (hv : v ≠ 0) : zeros (setCell g a b v) = zeros g := by
  have h5 := zeros_setCell g a b v
  rw [if_neg h, if_neg hv] at h5
  omega

theorem move_tile_loop_ok (active : List APU) (cur : Nat) (di dj : Int)
    (hcur : cur ≠ 0) (hd : ¬(di = 0 ∧ dj = 0)) :
    ∀ (fuel : Nat) (ni nj : Int) (st : MvS),
      readI st.grid (ni - di) (nj - dj) = cur →
      StepOk active st (move_tile_loop active cur di dj fuel ni nj st) := by
  intro fuel
  induction fuel with
  | zero => intro ni nj st _; exact stepOk_refl active st
  | succ fuel ih =>
    intro ni nj st hprev
    have hprevne : readI st.grid (ni - di) (nj - dj) ≠ 0 := by rw [hprev]; exact hcur
    obtain ⟨p, hp, hgp⟩ := readI_ne_zero hprevne
    rw [hprev] at hgp
    obtain ⟨hpx, hpy⟩ := toIdx_eq_some hp
    simp only [move_tile_loop]
    cases hc : toIdx ni nj with
    | none => exact stepOk_refl active st
    | some c =>
      obtain ⟨hcx, hcy⟩ := toIdx_eq_some hc
      have hpc : ¬(p.1 = c.1 ∧ p.2 = c.2) := by
        rintro ⟨h1, h2⟩
        apply hd
        have e1 : (p.1.val : Int) = (c.1.val : Int) := by rw [h1]
        have e2 : (p.2.val : Int) = (c.2.val : Int) := by rw [h2]
        omega
      have hcp : ¬(c.1 = p.1 ∧ c.2 = p.2) := by
        rintro ⟨h1, h2⟩
        exact hpc ⟨h1.symm, h2.symm⟩
      dsimp only
      by_cases hsc : st.grid c.1 c.2 = 0
      · -- slide branch
        rw [if_pos hsc, writeI_eq_of_some hp]
        have hg1p : setCell st.grid c.1 c.2 cur p.1 p.2 = cur := by
          rw [setCell_other _ _ _ _ _ _ hpc, hgp]
        have hz1 : zeros (setCell st.grid c.1 c.2 cur) + 1 = zeros st.grid :=
          zeros_setCell_fill hsc hcur
        have hz2 : zeros (setCell (setCell st.grid c.1 c.2 cur) p.1 p.2 0)
            = zeros (setCell st.grid c.1 c.2 cur) + 1 := by
          apply zeros_setCell_zero_src
          rw [hg1p]
          exact hcur
        have hz : zeros (setCell (setCell st.grid c.1 c.2 cur) p.1 p.2 0)
            = zeros st.grid := by omega
        have hpre : readI (setCell (setCell st.grid c.1 c.2 cur) p.1 p.2 0)
            (ni + di - di) (nj + dj - dj) = cur := by
          have hni : ni + di - di = ni := by ring
          have hnj : nj + dj - dj = nj := by ring
          rw [hni, hnj, readI_eq_of_some hc,
            setCell_other _ _ _ _ _ _ hcp, setCell_same]
        have hstep : StepOk active st
            { st with grid := setCell (setCell st.grid c.1 c.2 cur) p.1 p.2 0 } := by
          refine ⟨le_of_eq hz.symm, le_refl _, fun h => absurd h (lt_irrefl _), ?_,
            ⟨[], by simp, by simp⟩⟩
          intro _
          dsimp only
          rw [hz]
          exact zeros_pos_of_zero hsc
        exact stepOk_trans hstep (ih (ni + di) (nj + dj) _ hpre)
      · -- merge or stop branch
        rw [if_neg hsc]
        by_cases hm : st.grid c.1 c.2 = cur ∧ st.merged c.1 c.2 = false ∧
            readBI st.merged (ni - di) (nj - dj) = false
        · rw [if_pos hm, writeI_eq_of_some hp]
          have hnvne : st.grid c.1 c.2 * 2 ≠ 0 := by
            have := hm.1
            omega
          have hg1p : setCell st.grid c.1 c.2 (st.grid c.1 c.2 * 2) p.1 p.2 = cur := by
            rw [setCell_other _ _ _ _ _ _ hpc, hgp]
          have hz1 : zeros (setCell st.grid c.1 c.2 (st.grid c.1 c.2 * 2))
              = zeros st.grid :=
            zeros_setCell_keep hsc hnvne
          have hz2 : zeros (setCell (setCell st.grid c.1 c.2 (st.grid c.1 c.2 * 2)) p.1 p.2 0)
              = zeros (setCell st.grid c.1 c.2 (st.grid c.1 c.2 * 2)) + 1 := by
            apply zeros_setCell_zero_src
            rw [hg1p]
            exact hcur
          refine ⟨?_, ?_, ?_, ?_, ⟨[st.grid c.1 c.2 * 2], rfl, ?_⟩⟩
          · dsimp only
            omega
          · exact Nat.le_add_right _ _
          · intro _
            dsimp only
            omega
          · intro _
            dsimp only
            omega
          · dsimp only
            rw [List.sum_cons, List.sum_nil, Nat.add_zero, Nat.mul_comm]
        · rw [if_neg hm]
          exact stepOk_refl active st

theorem move_tile_ok (active : List APU) (i j : Fin 4) (di dj : Int)
    (hd : ¬(di = 0 ∧ dj = 0)) (st : MvS) :
    StepOk active st (move_tile active i j di dj st) := by
  unfold move_tile
  by_cases h : st.grid i j = 0
  · rw [if_pos h]
    exact stepOk_refl active st
  · rw [if_neg h]
    apply move_tile_loop_ok active (st.grid i j) di dj h hd
    have hni : (i.val : Int) + di - di = (i.val : Int) := by ring
    have hnj : (j.val : Int) + dj - dj = (j.val : Int) := by ring
    rw [hni, hnj, readI_fin]

theorem calls_nonzero_delta (dir : Direction) :
    ∀ c ∈ calls dir, ¬(c.2.2.1 = 0 ∧ c.2.2.2 = 0) := by
  cases dir <;> decide

theorem foldl_move_tile_ok (active : List APU)
    (l : List (Fin 4 × Fin 4 × Int × Int))
    (hl : ∀ c ∈ l, ¬(c.2.2.1 = 0 ∧ c.2.2.2 = 0)) :
    ∀ st : MvS, StepOk active st
      (l.foldl (fun st c => move_tile active c.1 c.2.1 c.2.2.1 c.2.2.2 st) st) := by
  induction l with
  | nil => intro st; exact stepOk_refl active st
  | cons c l ih =>
    intro st
    rw [List.foldl_cons]
    refine stepOk_trans (move_tile_ok active c.1 c.2.1 c.2.2.1 c.2.2.2 ?_ st) ?_
    · exact hl c (List.mem_cons_self c l)
    · exact ih (fun d hd => hl d (List.mem_cons_of_mem c hd)) _

theorem resolve_ok (dir : Direction) (active : List APU) (g : Grid) (score0 : Nat) :
    StepOk active
      { grid := g, merged := fun _ _ => false, score := score0, mergedValues := [] }
      (resolve dir active g score0) :=
  foldl_move_tile_ok active (calls dir) (calls_nonzero_delta dir) _

theorem resolve_score_eq (dir : Direction) (active : List APU) (g : Grid) (score0 : Nat) :
    (resolve dir active g score0).score =
      score0 + get_score_multiplier active * (resolve dir active g score0).mergedValues.sum := by
  obtain ⟨-, -, -, -, L, hm, he⟩ := resolve_ok dir active g score0
  rw [hm, he]
  simp

theorem resolve_unchanged_score (dir : Direction) (active : List APU) (g : Grid)
    (score0 : Nat) (h : (resolve dir active g score0).grid = g) :
    (resolve dir active g score0).score = score0 := by
  obtain ⟨hz, hs, hsz, -, -⟩ := resolve_ok dir active g score0
  simp only at hz hs hsz
  rcases Nat.lt_or_ge score0 (resolve dir active g score0).score with hlt | hge
  · have := hsz hlt
    rw [h] at this
    omega
  · omega

theorem resolve_changed_empty (dir : Direction) (active : List APU) (g : Grid)
    (score0 : Nat) (h : (resolve dir active g score0).grid ≠ g) :
    1 ≤ zeros (resolve dir active g score0).grid := by
  obtain ⟨-, -, -, hg, -⟩ := resolve_ok dir active g score0
  exact hg h

/-! ## Unfolding lemmas for `move_tiles`, `add_new_tile`, `check_achievements` -/

theorem move_tiles_snd (dir : Direction) (pick : Nat) (roll : Bool) (now : Nat)
    (s : GameState) :
    (move_tiles dir pick roll now s).2
      = !(gridEqb s.grid (resolve dir s.active_power_ups s.grid s.score).grid) := by
  simp only [move_tiles]
  cases hB : gridEqb s.grid (resolve dir s.active_power_ups s.grid s.score).grid <;>
    simp [hB]

theorem move_tiles_proj (dir : Direction) (pick : Nat) (roll : Bool) (now : Nat)
    (s : GameState) :
    (move_tiles dir pick roll now s).1.move_history
        = pushHist s.move_history s.grid s.max_undos ∧
    (move_tiles dir pick roll now s).1.score
        = (resolve dir s.active_power_ups s.grid s.score).score ∧
    (move_tiles dir pick roll now s).1.undo_count = s.undo_count ∧
    (move_tiles dir pick roll now s).1.max_undos = s.max_undos ∧
    (move_tiles dir pick roll now s).1.game_over = s.game_over := by
  simp only [move_tiles]
  cases hB : gridEqb s.grid (resolve dir s.active_power_ups s.grid s.score).grid <;>
    simp [hB]

theorem move_tiles_grid_not_moved (dir : Direction) (pick : Nat) (roll : Bool)
    (now : Nat) (s : GameState)
    (h : gridEqb s.grid (resolve dir s.active_power_ups s.grid s.score).grid = true) :
    (move_tiles dir pick roll now s).1.grid
      = (resolve dir s.active_power_ups s.grid s.score).grid := by
  simp only [move_tiles]
  simp [h]

theorem move_tiles_grid_moved (dir : Direction) (pick : Nat) (roll : Bool)
    (now : Nat) (s : GameState)
    (h : gridEqb s.grid (resolve dir s.active_power_ups s.grid s.score).grid = false) :
    (move_tiles dir pick roll now s).1.grid
      = (add_new_tile (resolve dir s.active_power_ups s.grid s.score).grid pick roll).1 := by
  simp only [move_tiles]
  simp [h]

theorem add_new_tile_spec (g : Grid) (pick : Nat) (roll : Bool) :
    (add_new_tile g pick roll).2 = none ∧
    ((∃ a b, g a b = 0) → ∃ a b, g a b = 0 ∧
      (add_new_tile g pick roll).1 = setCell g a b (if roll then 2 else 4)) ∧
    ((∀ a b, g a b ≠ 0) → (add_new_tile g pick roll).1 = g) := by
  simp only [add_new_tile]
  by_cases h : empty_cells g ≠ []
  · rw [dif_pos h]
    refine ⟨rfl, ?_, ?_⟩
    · intro _
      have hmem : (empty_cells g).get
          ⟨pick % (empty_cells g).length, Nat.mod_lt _ (List.length_pos.mpr h)⟩
          ∈ empty_cells g := List.get_mem _ _ _
      have hz := mem_empty_cells.mp hmem
      exact ⟨_, _, hz, rfl⟩
    · intro hall
      obtain ⟨c, hc⟩ := List.exists_mem_of_ne_nil _ h
      exact absurd (mem_empty_cells.mp hc) (hall c.1 c.2)
  · rw [dif_neg h]
    refine ⟨rfl, ?_, fun _ => rfl⟩
    rintro ⟨a, b, hz⟩
    exact absurd (List.ne_nil_of_mem ((@mem_empty_cells g (a, b)).mpr hz)) h

theorem check_achievements_go (env : AchEnv) (now : Nat) (achs : List Achievement) :
    ∀ acc : List Achievement × List Notif,
      achs.foldl
        (fun acc a =>
          if a.unlocked = false then
            if condHolds a.condition env then
              (acc.1 ++ [{ a with unlocked := true }], acc.2 ++ [mkNotif a now])
            else (acc.1 ++ [a], acc.2)
          else (acc.1 ++ [a], acc.2)) acc
      = (acc.1 ++ achs.map (achStep env),
         acc.2 ++ (achs.filter fun a =>
           decide (a.unlocked = false) && condHolds a.condition env).map
             (fun a => mkNotif a now)) := by
  induction achs with
  | nil => intro acc; simp
  | cons a l ih =>
    intro acc
    rw [List.foldl_cons]
    by_cases hu : a.unlocked = false
    · cases hcnd : condHolds a.condition env
      · rw [if_pos hu, if_neg (by decide), ih]
        simp [achStep, hu, hcnd]
      · rw [if_pos hu, if_pos (by decide), ih]
        simp [achStep, hu, hcnd]
    · rw [if_neg hu, ih]
      have hu2 : a.unlocked = true := by
        cases hv : a.unlocked
        · exact absurd hv hu
        · rfl
      simp [achStep, hu, hu2]

theorem check_achievements_eq (achs : List Achievement) (env : AchEnv) (now : Nat) :
    check_achievements achs env now
      = (achs.map (achStep env),
         (achs.filter fun a =>
           decide (a.unlocked = false) && condHolds a.condition env).map
             (fun a => mkNotif a now)) := by
  unfold check_achievements
  rw [check_achievements_go]
  simp

theorem achStep_unlocked (env : AchEnv) (a : Achievement) (h : a.unlocked = true) :
    achStep env a = a := by
  unfold achStep
  rw [h]
  simp

/-! ## The game-over condition -/

theorem hasEmpty_iff (g : Grid) : hasEmpty g = true ↔ ∃ i j, g i j = 0 := by
  simp [hasEmpty, List.any_eq_true]

theorem check_can_merge_iff (g : Grid) :
    check_can_merge g = true ↔ ∃ i j : Fin 4,
      g i j ≠ 0 ∧ ((j.val < 3 ∧ getN g i.val (j.val + 1) = g i j) ∨
                   (i.val < 3 ∧ getN g (i.val + 1) j.val = g i j)) := by
  simp [check_can_merge, List.any_eq_true, Bool.and_eq_true, Bool.or_eq_true,
    decide_eq_true_eq]

theorem getN_eq (g : Grid) (i j : Fin 4) : getN g i.val j.val = g i j := by
  unfold getN
  rw [dif_pos ⟨i.isLt, j.isLt⟩]

theorem is_game_over_iff (g : Grid) :
    is_game_over g = true ↔
      (∀ i j, g i j ≠ 0) ∧
      (∀ p q : Fin 4 × Fin 4, AdjCells p q →
        ¬(g p.1 p.2 = g q.1 q.2 ∧ g p.1 p.2 ≠ 0)) := by
  unfold is_game_over
  rw [Bool.and_eq_true, Bool.not_eq_true', Bool.not_eq_true']
  constructor
  · rintro ⟨he, hm⟩
    constructor
    · intro i j hz
      have : hasEmpty g = true := (hasEmpty_iff g).mpr ⟨i, j, hz⟩
      rw [he] at this
      cases this
    · rintro p q hadj ⟨heq, hne⟩
      have hhit : check_can_merge g = true := by
        apply (check_can_merge_iff g).mpr
        rcases hadj with ⟨hr, hj1 | hj2⟩ | ⟨hcQ, hi1 | hi2⟩
        · refine ⟨p.1, p.2, hne, Or.inl ⟨by have := q.2.isLt; omega, ?_⟩⟩
          rw [hj1, getN_eq g p.1 q.2]
          have h9 : g p.1 q.2 = g q.1 q.2 := by rw [hr]
          rw [h9]
          exact heq.symm
        · refine ⟨q.1, q.2, by rw [← heq]; exact hne,
            Or.inl ⟨by have := p.2.isLt; omega, ?_⟩⟩
          rw [hj2, getN_eq g q.1 p.2]
          have h9 : g q.1 p.2 = g p.1 p.2 := by rw [hr]
          rw [h9]
          exact heq
        · refine ⟨p.1, p.2, hne, Or.inr ⟨by have := q.1.isLt; omega, ?_⟩⟩
          rw [hi1, getN_eq g q.1 p.2]
          have h9 : g q.1 p.2 = g q.1 q.2 := by rw [hcQ]
          rw [h9]
          exact heq.symm
        · refine ⟨q.1, q.2, by rw [← heq]; exact hne,
            Or.inr ⟨by have := p.1.isLt; omega, ?_⟩⟩
          rw [hi2, getN_eq g p.1 q.2]
          have h9 : g p.1 q.2 = g p.1 p.2 := by rw [hcQ]
          rw [h9]
          exact heq
      rw [hm] at hhit
      cases hhit
  · rintro ⟨hfull, hadj⟩
    constructor
    · cases hv : hasEmpty g
      · rfl
      · obtain ⟨i, j, hz⟩ := (hasEmpty_iff g).mp hv
        exact absurd hz (hfull i j)
    · cases hv : check_can_merge g
      · rfl
      · obtain ⟨i, j, hne, hcase⟩ := (check_can_merge_iff g).mp hv
        exfalso
        rcases hcase with ⟨hj, hget⟩ | ⟨hi, hget⟩
        · have hq : getN g i.val (j.val + 1) = g i ⟨j.val + 1, by omega⟩ :=
            getN_eq g i ⟨j.val + 1, by omega⟩
          refine hadj (i, j) (i, ⟨j.val + 1, by omega⟩) (Or.inl ⟨rfl, Or.inl rfl⟩) ?_
          constructor
          · rw [← hget, hq]
          · exact hne
        · have hq : getN g (i.val + 1) j.val = g ⟨i.val + 1, by omega⟩ j :=
            getN_eq g ⟨i.val + 1, by omega⟩ j
          refine hadj (i, j) (⟨i.val + 1, by omega⟩, j) (Or.inr ⟨rfl, Or.inl rfl⟩) ?_
          constructor
          · rw [← hget, hq]
          · exact hne

/-! ## Claim theorems -/

/-- C1: the move resolution compacts and merges each tile at most once:
the row `[2, 2, 2, 2]` moved Left resolves to `[4, 4, 0, 0]` with
`scoreDelta = 8` and `moved = true`; the row `[0, 2, 2, 4]` moved Left
resolves to `[4, 4, 0, 0]` with `scoreDelta = 4` and `moved = true`;
a compacted run `[2, 2, 2, 2]` never resolves to `[8, 0, 0, 0]`. -/
theorem c1_no_double_merge :
    (resolve .left [] rowTwos 0).grid
      = ![![4, 4, 0, 0], ![0, 0, 0, 0], ![0, 0, 0, 0], ![0, 0, 0, 0]] ∧
    (resolve .left [] rowTwos 0).score = 8 ∧
    (move_tiles .left 0 true 0 (sessionOf rowTwos)).2 = true ∧
    (resolve .left [] rowMix 0).grid
      = ![![4, 4, 0, 0], ![0, 0, 0, 0], ![0, 0, 0, 0], ![0, 0, 0, 0]] ∧
    (resolve .left [] rowMix 0).score = 4 ∧
    (move_tiles .left 0 true 0 (sessionOf rowMix)).2 = true ∧
    (resolve .left [] rowTwos 0).grid
      ≠ ![![8, 0, 0, 0], ![0, 0, 0, 0], ![0, 0, 0, 0], ![0, 0, 0, 0]] := by
  decide

/-- C2: evaluation of the code at the failing input.  Starting from the
board with first row `[2, 2, 2, 2]`, two Left moves are applied (spawns
deterministically fixed) and then `undo_move`.  The undo succeeds, but
the restored board is the snapshot from before the FIRST move
(`rowTwos`), not the pre-second-move board, and the score stays at its
post-move value 16 instead of returning to the pre-move value 8: the
source pops the pre-move snapshot and restores the entry below it, and
never restores the score. -/
theorem c2_undo_restores_neither_board_nor_score :
    (move_tiles .left 0 true 0 (sessionOf rowTwos)).1.score = 8 ∧
    (move_tiles .left 0 true 1 (move_tiles .left 0 true 0 (sessionOf rowTwos)).1).2
      = true ∧
    (move_tiles .left 0 true 1
      (move_tiles .left 0 true 0 (sessionOf rowTwos)).1).1.score = 16 ∧
    (undo_move (move_tiles .left 0 true 1
      (move_tiles .left 0 true 0 (sessionOf rowTwos)).1).1).2 = true ∧
    (undo_move (move_tiles .left 0 true 1
      (move_tiles .left 0 true 0 (sessionOf rowTwos)).1).1).1.grid
      ≠ (move_tiles .left 0 true 0 (sessionOf rowTwos)).1.grid ∧
    (undo_move (move_tiles .left 0 true 1
      (move_tiles .left 0 true 0 (sessionOf rowTwos)).1).1).1.grid = rowTwos ∧
    (undo_move (move_tiles .left 0 true 1
      (move_tiles .left 0 true 0 (sessionOf rowTwos)).1).1).1.score = 16 := by
  decide

/-- C3: evaluation of the code at the failing input.  On a freshly
constructed game, EVERY `use_power_up` call raises `AttributeError`
before any dispatch, because `initialize_features` stores the catalog in
`self.power_ups` while `use_power_up` reads `self.available_power_ups`,
which is never assigned; no boolean is ever returned. -/
theorem c3_use_power_up_raises_attribute_error :
    ∀ (p1 p2 : Nat) (r1 r2 : Bool) (id : String) (args : List Int),
      (mkGame p1 r1 p2 r2).available_power_ups = none ∧
      use_power_up (mkGame p1 r1 p2 r2) id args = Except.error PyErr.attributeError :=
  fun _ _ _ _ _ _ => ⟨rfl, rfl⟩

/-- C4: the game-over detection of `update` is true iff the grid has no
empty cell and no two edge-adjacent cells hold equal nonzero values; a
fully packed alternating board is game over and the same board with one
equal adjacent pair is not; while playing, `update` sets `game_over`
exactly when the condition holds. -/
theorem c4_game_over_detection :
    (∀ g : Grid, is_game_over g = true ↔
      (∀ i j, g i j ≠ 0) ∧
      (∀ p q : Fin 4 × Fin 4, AdjCells p q →
        ¬(g p.1 p.2 = g q.1 q.2 ∧ g p.1 p.2 ≠ 0))) ∧
    (∀ s : GameState, s.game_over = false →
      ((update_game_over s).game_over = true ↔ is_game_over s.grid = true)) ∧
    is_game_over fullGrid = true ∧ is_game_over fullGridPair = false := by
  refine ⟨is_game_over_iff, ?_, by decide, by decide⟩
  intro s hs
  unfold update_game_over
  rw [if_pos hs]
  by_cases h : is_game_over s.grid = true
  · rw [if_pos h]
    simp [h]
  · rw [if_neg h]
    constructor
    · intro hgo
      rw [hs] at hgo
      cases hgo
    · intro hgo
      exact absurd hgo h

/-- C4 witness: the packed alternating board, in a live session, flips
`game_over` to true. -/
theorem c4_game_over_detection_witness :
    (update_game_over (sessionOf fullGrid)).game_over = true := by
  have h := c4_game_over_detection.2.1 (sessionOf fullGrid) (by decide)
  exact h.mpr (by decide)

/-- C5 counterexample: on a board with no empty cell, `add_new_tile`
does leave the board unchanged, but it returns `None` (the function has
no return statement), not the boolean `false` the claim states. -/
theorem c5_spawn_returns_none_not_false :
    (add_new_tile fullGrid 0 true).2 ≠ some false ∧
    (add_new_tile fullGrid 0 true).2 = none ∧
    (add_new_tile fullGrid 0 true).1 = fullGrid := by
  decide

/-- C5 amended: `add_new_tile` always returns `None`; on a board with at
least one empty cell it writes a 2 (when the 0.9-probability draw hits)
or a 4 into a cell that was empty immediately beforehand, leaves exactly
one additional nonzero cell and changes no other cell; on a board with
no empty cell it leaves the board unchanged. -/
theorem c5_spawn_legality :
    ∀ (g : Grid) (pick : Nat) (roll : Bool),
      (add_new_tile g pick roll).2 = none ∧
      ((∃ a b, g a b = 0) → ∃ a b, g a b = 0 ∧
        (add_new_tile g pick roll).1 a b = (if roll then 2 else 4) ∧
        (add_new_tile g pick roll).1 a b ≠ 0 ∧
        zeros ((add_new_tile g pick roll).1) + 1 = zeros g ∧
        ∀ x y, ¬(x = a ∧ y = b) → (add_new_tile g pick roll).1 x y = g x y) ∧
      ((∀ a b, g a b ≠ 0) → (add_new_tile g pick roll).1 = g) := by
  intro g pick roll
  obtain ⟨hnone, hspec, hfull⟩ := add_new_tile_spec g pick roll
  refine ⟨hnone, ?_, hfull⟩
  intro hex
  obtain ⟨a, b, hz, heq⟩ := hspec hex
  have hv : (if roll then (2 : Nat) else 4) ≠ 0 := by cases roll <;> decide
  refine ⟨a, b, hz, ?_, ?_, ?_, ?_⟩
  · rw [heq, setCell_same]
  · rw [heq, setCell_same]
    exact hv
  · rw [heq]
    exact zeros_setCell_fill hz hv
  · intro x y hxy
    rw [heq]
    exact setCell_other _ _ _ _ _ _ hxy

/-- C5 witness: spawning on the board with first row `[2, 2, 0, 0]`
writes a 2 into a previously empty cell. -/
theorem c5_spawn_legality_witness :
    ∃ a b, gPrev a b = 0 ∧
      (add_new_tile gPrev 5 true).1 a b = (if true then 2 else 4) ∧
      (add_new_tile gPrev 5 true).1 a b ≠ 0 ∧
      zeros ((add_new_tile gPrev 5 true).1) + 1 = zeros gPrev ∧
      ∀ x y, ¬(x = a ∧ y = b) → (add_new_tile gPrev 5 true).1 x y = gPrev x y :=
  (c5_spawn_legality gPrev 5 true).2.1 (by decide)

/-- C6: the score increase of the move phase equals the multiplier times
the sum of the newly created merged values (each merge contributes the
doubled value `2v`), the multiplier is 2 to the number of active
double-points effects, and `move_tiles` carries exactly that score into
the resulting state. -/
theorem c6_score_delta_multiplier :
    ∀ (dir : Direction) (active : List APU) (g : Grid) (score0 : Nat),
      (resolve dir active g score0).score
        = score0 + get_score_multiplier active
            * (resolve dir active g score0).mergedValues.sum ∧
      get_score_multiplier active
        = 2 ^ (active.countP fun p => decide (p.type = "double_points")) ∧
      ∀ (pick : Nat) (roll : Bool) (now : Nat) (s : GameState),
        (move_tiles dir pick roll now s).1.score
          = (resolve dir s.active_power_ups s.grid s.score).score :=
  fun dir active g score0 =>
    ⟨resolve_score_eq dir active g score0, get_score_multiplier_eq_pow active,
     fun pick roll now s => (move_tiles_proj dir pick roll now s).2.1⟩

/-- C7: a move that does not change the board leaves the grid and the
score untouched and spawns nothing; a move that changes the board spawns
exactly one tile (a 2 or a 4) into a cell that was empty after the
resolution, consuming exactly one empty cell. -/
theorem c7_one_spawn_per_changed_move :
    ∀ (s : GameState) (dir : Direction) (pick : Nat) (roll : Bool) (now : Nat),
      ((move_tiles dir pick roll now s).2 = false →
        (move_tiles dir pick roll now s).1.grid = s.grid ∧
        (move_tiles dir pick roll now s).1.score = s.score) ∧
      ((move_tiles dir pick roll now s).2 = true →
        ∃ a b, (resolve dir s.active_power_ups s.grid s.score).grid a b = 0 ∧
          (move_tiles dir pick roll now s).1.grid
            = setCell (resolve dir s.active_power_ups s.grid s.score).grid a b
                (if roll then 2 else 4) ∧
          zeros ((move_tiles dir pick roll now s).1.grid) + 1
            = zeros (resolve dir s.active_power_ups s.grid s.score).grid) := by
  intro s dir pick roll now
  have hsnd := move_tiles_snd dir pick roll now s
  constructor
  · intro hmv
    rw [hsnd] at hmv
    have hEq : gridEqb s.grid (resolve dir s.active_power_ups s.grid s.score).grid
        = true := by
      cases hB : gridEqb s.grid (resolve dir s.active_power_ups s.grid s.score).grid
      · rw [hB] at hmv
        cases hmv
      · rfl
    have hg : (resolve dir s.active_power_ups s.grid s.score).grid = s.grid :=
      ((gridEqb_eq_true_iff _ _).mp hEq).symm
    constructor
    · rw [move_tiles_grid_not_moved dir pick roll now s hEq, hg]
    · rw [(move_tiles_proj dir pick roll now s).2.1]
      exact resolve_unchanged_score dir s.active_power_ups s.grid s.score hg
  · intro hmv
    rw [hsnd] at hmv
    have hNe : gridEqb s.grid (resolve dir s.active_power_ups s.grid s.score).grid
        = false := by
      cases hB : gridEqb s.grid (resolve dir s.active_power_ups s.grid s.score).grid
      · rfl
      · rw [hB] at hmv
        cases hmv
    have hgne : (resolve dir s.active_power_ups s.grid s.score).grid ≠ s.grid :=
      Ne.symm ((gridEqb_eq_false_iff _ _).mp hNe)
    have hz1 : 1 ≤ zeros (resolve dir s.active_power_ups s.grid s.score).grid :=
      resolve_changed_empty dir s.active_power_ups s.grid s.score hgne
    obtain ⟨a0, b0, hz0⟩ := exists_zero_of_zeros_pos hz1
    obtain ⟨-, hspec, -⟩ :=
      add_new_tile_spec (resolve dir s.active_power_ups s.grid s.score).grid pick roll
    obtain ⟨a, b, hz, heq⟩ := hspec ⟨a0, b0, hz0⟩
    refine ⟨a, b, hz, ?_, ?_⟩
    · rw [move_tiles_grid_moved dir pick roll now s hNe, heq]
    · rw [move_tiles_grid_moved dir pick roll now s hNe, heq]
      have hv : (if roll then (2 : Nat) else 4) ≠ 0 := by cases roll <;> decide
      exact zeros_setCell_fill hz hv

/-- C7 witness: the Left move on the `[2, 2, 2, 2]` row changes the
board, so exactly one tile is spawned into an empty post-resolution
cell. -/
theorem c7_one_spawn_per_changed_move_witness :
    ∃ a b, (resolve .left (sessionOf rowTwos).active_power_ups
        (sessionOf rowTwos).grid (sessionOf rowTwos).score).grid a b = 0 ∧
      (move_tiles .left 0 true 0 (sessionOf rowTwos)).1.grid
        = setCell (resolve .left (sessionOf rowTwos).active_power_ups
            (sessionOf rowTwos).grid (sessionOf rowTwos).score).grid a b
            (if true then 2 else 4) ∧
      zeros ((move_tiles .left 0 true 0 (sessionOf rowTwos)).1.grid) + 1
        = zeros (resolve .left (sessionOf rowTwos).active_power_ups
            (sessionOf rowTwos).grid (sessionOf rowTwos).score).grid :=
  (c7_one_spawn_per_changed_move (sessionOf rowTwos) .left 0 true 0).2 (by decide)

/-- C8: `undo_move` succeeds exactly when the history is deeper than one
entry, the undo budget is not exhausted and the game is not over; on
failure it is a no-op returning false; on success it increments
`undo_count` and pops the most recent snapshot. -/
theorem c8_undo_guard_conditions :
    ∀ s : GameState,
      ((undo_move s).2 = true ↔
        1 < s.move_history.length ∧ s.undo_count < s.max_undos ∧
          s.game_over = false) ∧
      ((undo_move s).2 = false → (undo_move s).1 = s) ∧
      ((undo_move s).2 = true →
        (undo_move s).1.undo_count = s.undo_count + 1 ∧
        (undo_move s).1.move_history = s.move_history.dropLast) := by
  intro s
  unfold undo_move
  by_cases h : 1 < s.move_history.length ∧ s.undo_count < s.max_undos ∧
      s.game_over = false
  · rw [if_pos h]
    exact ⟨⟨fun _ => h, fun _ => rfl⟩, fun hf => Bool.noConfusion hf,
      fun _ => ⟨rfl, rfl⟩⟩
  · rw [if_neg h]
    exact ⟨⟨fun ht => Bool.noConfusion ht, fun hc => absurd hc h⟩,
      fun _ => rfl, fun ht => Bool.noConfusion ht⟩

/-- C8 witness: with two history entries, budget left and the game live,
`undo_move` succeeds; at session start (empty history) it fails. -/
theorem c8_undo_guard_conditions_witness :
    (undo_move sUndoable).2 = true ∧ (undo_move (sessionOf gCur)).2 = false := by
  constructor
  · exact (c8_undo_guard_conditions sUndoable).1.mpr (by decide)
  · cases hb : (undo_move (sessionOf gCur)).2
    · rfl
    · have h2 := (c8_undo_guard_conditions (sessionOf gCur)).1.mp hb
      exact absurd h2.1 (by decide)

/-- C9: an unlocked achievement is left untouched by any further
achievement scan (never re-locked, never re-notified) and by any
sequence of scans; every notification a scan emits comes from a
previously locked achievement whose condition now holds; and
`reset_game` never touches the achievement list. -/
theorem check_achievements_keeps_unlocked (achs : List Achievement) (env : AchEnv)
    (now : Nat) (i : Nat) (a : Achievement) (h : achs[i]? = some a)
    (hu : a.unlocked = true) :
    ((check_achievements achs env now).1)[i]? = some a := by
  rw [check_achievements_eq]
  dsimp only
  rw [List.getElem?_map, h]
  dsimp only [Option.map]
  rw [achStep_unlocked env a hu]

theorem runChecks_keeps_unlocked (envs : List (AchEnv × Nat)) :
    ∀ (achs : List Achievement) (i : Nat) (a : Achievement),
      achs[i]? = some a → a.unlocked = true →
      (runChecks achs envs)[i]? = some a := by
  induction envs with
  | nil => intro achs i a h _; exact h
  | cons e es ih =>
    intro achs i a h hu
    exact ih (check_achievements achs e.1 e.2).1 i a
      (check_achievements_keeps_unlocked achs e.1 e.2 i a h hu) hu

theorem c9_achievement_monotonicity :
    ∀ (achs : List Achievement) (envs : List (AchEnv × Nat)) (env : AchEnv)
      (now : Nat) (i : Nat) (a : Achievement),
      achs[i]? = some a → a.unlocked = true →
      ((check_achievements achs env now).1)[i]? = some a ∧
      (runChecks achs envs)[i]? = some a ∧
      (∀ n ∈ (check_achievements achs env now).2, ∃ b, b ∈ achs ∧
        b.unlocked = false ∧ condHolds b.condition env = true ∧
        n = mkNotif b now) ∧
      (∀ (s : GameState) (p1 : Nat) (r1 : Bool) (p2 : Nat) (r2 : Bool),
        (reset_game s p1 r1 p2 r2).1.achievements = s.achievements) := by
  intro achs envs env now i a h hu
  refine ⟨check_achievements_keeps_unlocked achs env now i a h hu,
    runChecks_keeps_unlocked envs achs i a h hu, ?_, ?_⟩
  · rw [check_achievements_eq]
    dsimp only
    intro n hn
    obtain ⟨b, hb, hnb⟩ := List.mem_map.mp hn
    have hbmem := List.mem_filter.mp hb
    have hband := hbmem.2
    rw [Bool.and_eq_true, decide_eq_true_eq] at hband
    exact ⟨b, hbmem.1, hband.1, hband.2, hnb.symm⟩
  · intro s p1 r1 p2 r2
    unfold reset_game
    cases hA : s.available_power_ups <;> simp [hA]

/-- C9 witness: an already-unlocked achievement survives a scan whose
condition holds, and a whole sequence of scans, untouched. -/
theorem c9_achievement_monotonicity_witness :
    ((check_achievements [achWitness] envWitness 7).1)[0]? = some achWitness ∧
    (runChecks [achWitness] [(envWitness, 7)])[0]? = some achWitness := by
  have h := c9_achievement_monotonicity [achWitness] [(envWitness, 7)]
    envWitness 7 0 achWitness rfl rfl
  exact ⟨h.1, h.2.1⟩

/-- C10 counterexample: a Left move on `sNoop` is a no-op (`moved =
false`) and pushes the pre-move snapshot, making the history
`[gPrev, gCur]`; the following `undo_move` succeeds and consumes budget,
but it restores `gPrev` — the snapshot from before the PREVIOUS move —
which differs from the current board, contradicting the claim that the
restored board is identical to the current one. -/
theorem c10_undo_after_noop_restores_older_board :
    (move_tiles .left 0 true 0 sNoop).2 = false ∧
    (move_tiles .left 0 true 0 sNoop).1.move_history = [gPrev, gCur] ∧
    (undo_move (move_tiles .left 0 true 0 sNoop).1).2 = true ∧
    (undo_move (move_tiles .left 0 true 0 sNoop).1).1.undo_count = 1 ∧
    (undo_move (move_tiles .left 0 true 0 sNoop).1).1.grid = gPrev ∧
    (undo_move (move_tiles .left 0 true 0 sNoop).1).1.grid
      ≠ (move_tiles .left 0 true 0 sNoop).1.grid := by
  decide

/-- C10 amended: a move attempt that does not change the board still
pushes the pre-move snapshot onto the history (leaving grid, score and
`undo_count` untouched); a subsequent `undo_move` (with history depth
above one, budget remaining and the game live) succeeds, increments
`undo_count` by one, and restores the board from the entry BELOW the
popped snapshot — the snapshot stored before the previous move attempt —
which need not equal the current board. -/
theorem c10_noop_pushes_snapshot :
    ∀ (s : GameState) (dir : Direction) (pick : Nat) (roll : Bool) (now : Nat),
      (move_tiles dir pick roll now s).2 = false →
      (move_tiles dir pick roll now s).1.grid = s.grid ∧
      (move_tiles dir pick roll now s).1.score = s.score ∧
      (move_tiles dir pick roll now s).1.move_history
        = pushHist s.move_history s.grid s.max_undos ∧
      (move_tiles dir pick roll now s).1.undo_count = s.undo_count ∧
      (1 < (move_tiles dir pick roll now s).1.move_history.length →
        s.undo_count < s.max_undos →
        s.game_over = false →
        (undo_move (move_tiles dir pick roll now s).1).2 = true ∧
        (undo_move (move_tiles dir pick roll now s).1).1.undo_count
          = s.undo_count + 1 ∧
        (undo_move (move_tiles dir pick roll now s).1).1.grid
          = (pushHist s.move_history s.grid s.max_undos).dropLast.getLastD zeroGrid) := by
  intro s dir pick roll now hmv
  obtain ⟨hhist, hscore, hundo, hmax, hover⟩ := move_tiles_proj dir pick roll now s
  have hsnd := move_tiles_snd dir pick roll now s
  rw [hmv] at hsnd
  have hEq : gridEqb s.grid (resolve dir s.active_power_ups s.grid s.score).grid
      = true := by
    cases hB : gridEqb s.grid (resolve dir s.active_power_ups s.grid s.score).grid
    · rw [hB] at hsnd
      cases hsnd
    · rfl
  have hg : (resolve dir s.active_power_ups s.grid s.score).grid = s.grid :=
    ((gridEqb_eq_true_iff _ _).mp hEq).symm
  have hgrid : (move_tiles dir pick roll now s).1.grid = s.grid := by
    rw [move_tiles_grid_not_moved dir pick roll now s hEq, hg]
  refine ⟨hgrid, ?_, hhist, hundo, ?_⟩
  · rw [hscore]
    exact resolve_unchanged_score dir s.active_power_ups s.grid s.score hg
  · intro hlen hbud hlive
    have hcond : 1 < (move_tiles dir pick roll now s).1.move_history.length ∧
        (move_tiles dir pick roll now s).1.undo_count
          < (move_tiles dir pick roll now s).1.max_undos ∧
        (move_tiles dir pick roll now s).1.game_over = false := by
      refine ⟨hlen, ?_, ?_⟩
      · rw [hundo, hmax]
        exact hbud
      · rw [hover]
        exact hlive
    unfold undo_move
    rw [if_pos hcond]
    refine ⟨rfl, ?_, ?_⟩
    · dsimp only
      rw [hundo]
    · dsimp only
      rw [hhist]

/-- C10 witness: the concrete no-op session satisfies the guard
hypotheses, so the undo succeeds, consumes budget, and restores the
entry below the popped snapshot. -/
theorem c10_noop_pushes_snapshot_witness :
    (undo_move (move_tiles .left 0 true 0 sNoop).1).2 = true ∧
    (undo_move (move_tiles .left 0 true 0 sNoop).1).1.undo_count = 1 ∧
    (undo_move (move_tiles .left 0 true 0 sNoop).1).1.grid
      = (pushHist sNoop.move_history sNoop.grid sNoop.max_undos).dropLast.getLastD
          zeroGrid := by
  have h := c10_noop_pushes_snapshot sNoop .left 0 true 0 (by decide)
  have h2 := h.2.2.2.2 (by decide) (by decide) (by decide)
  exact ⟨h2.1, h2.2.1, h2.2.2⟩

end Game2048
